import Mathlib

/-!
Verification development for the python-transifex client library.

The repository has two parts:
* `transifex/util.py` — the slug normalizer `slugify` (embedded below from
  the source, character by character);
* the API client `TransifexAPI` (its module is exercised by `tests/test_api.py`;
  the client itself is modelled from the specification, see the `Modelled from
  the spec:` doc comments).

Python 2 semantics that matter for the embedding of `slugify`:
* after `.encode('ascii', 'ignore')` the value is a byte string, so the
  regexes run without `re.UNICODE`: `\w` is `[A-Za-z0-9_]` and `\s` is
  `[ \t\n\r\f\v]` (code points 32 and 9..13);
* `str.strip()` trims exactly that whitespace set from both edges;
* `str.lower()` maps code points 65..90 to 97..122 and nothing else.
-/

namespace Transifex

/-- Word character of the Python 2 byte-string regex class `\w`,
i.e. `[A-Za-z0-9_]`. -/
def isWordCharB (c : Char) : Bool :=
  (65 ≤ c.toNat && c.toNat ≤ 90) || (97 ≤ c.toNat && c.toNat ≤ 122) ||
    (48 ≤ c.toNat && c.toNat ≤ 57) || c.toNat == 95

/-- Whitespace of the Python 2 byte-string regex class `\s`,
i.e. space, tab, newline, carriage return, form feed, vertical tab. -/
def isSpaceCharB (c : Char) : Bool :=
  c.toNat == 32 || (9 ≤ c.toNat && c.toNat ≤ 13)

/-- Character matched by the class `[-\s]` of the final `re.sub` in
`slugify`: a hyphen or whitespace. -/
def isHyphenOrSpace (c : Char) : Bool :=
  c.toNat == 45 || isSpaceCharB c

/-- Python 2 `str.lower()` on a byte string: only ASCII `A`..`Z` change. -/
def toLowerB (c : Char) : Char :=
  if 65 ≤ c.toNat && c.toNat ≤ 90 then Char.ofNat (c.toNat + 32) else c

/-- Embedding of `unicodedata.normalize('NFKD', value).encode('ascii', 'ignore')`
for a single character.  ASCII characters are kept unchanged.  For non-ASCII
characters the table below covers the Latin letters exercised in this
development (NFKD decomposes them into an ASCII base letter followed by
combining marks, and `'ignore'` drops the marks, leaving the base letter);
every other non-ASCII character is dropped, which is what
`encode('ascii', 'ignore')` does to characters without an ASCII base. -/
def asciiFold (c : Char) : List Char :=
  if c.toNat ≤ 127 then [c]
  else if c = 'À' then ['A'] else if c = 'Á' then ['A']
  else if c = 'È' then ['E'] else if c = 'É' then ['E']
  else if c = 'Ì' then ['I'] else if c = 'Í' then ['I']
  else if c = 'Ò' then ['O'] else if c = 'Ó' then ['O']
  else if c = 'Ù' then ['U'] else if c = 'Ú' then ['U'] else if c = 'Ü' then ['U']
  else if c = 'à' then ['a'] else if c = 'á' then ['a']
  else if c = 'è' then ['e'] else if c = 'é' then ['e']
  else if c = 'ì' then ['i'] else if c = 'í' then ['i'] else if c = 'ï' then ['i']
  else if c = 'ò' then ['o'] else if c = 'ó' then ['o']
  else if c = 'ù' then ['u'] else if c = 'ú' then ['u'] else if c = 'ü' then ['u']
  else if c = 'ñ' then ['n'] else if c = 'Ñ' then ['N']
  else []

/-- Embedding of the NFKD-normalize-then-ASCII-encode step of `slugify`,
applied across the whole character list. -/
def nfkdAscii : List Char → List Char
  | [] => []
  | c :: rest => asciiFold c ++ nfkdAscii rest

/-- Embedding of `re.sub('[^\w\s-]', '', value)`: keep exactly the word
characters, whitespace and hyphens. -/
def removeDisallowed (l : List Char) : List Char :=
  l.filter (fun c => isWordCharB c || isSpaceCharB c || c.toNat == 45)

/-- Embedding of Python `str.strip()`: drop whitespace from both edges. -/
def stripEdgeSpaces (l : List Char) : List Char :=
  ((l.dropWhile isSpaceCharB).reverse.dropWhile isSpaceCharB).reverse

/-- Embedding of Python `str.lower()` applied to every character. -/
def lowerAll (l : List Char) : List Char :=
  l.map toLowerB

/-- Embedding of `re.sub('[-\s]+', '-', value)`, written as a left-to-right
scan: the flag records whether the previous character belonged to a run of
hyphens/whitespace, so each maximal run contributes a single hyphen. -/
def collapseAux : Bool → List Char → List Char
  | _, [] => []
  | inRun, c :: rest =>
    if isHyphenOrSpace c then
      if inRun then collapseAux true rest else '-' :: collapseAux true rest
    else
      c :: collapseAux false rest

/-- Embedding of `re.sub('[-\s]+', '-', value)`: every maximal run of
hyphens and/or whitespace becomes a single hyphen. -/
def collapseRuns (l : List Char) : List Char :=
  collapseAux false l

/-- Embedding of `transifex.util.slugify` (`force_unicode` is the identity on
the text values considered here, so it is not materialized):
normalize NFKD and encode to ASCII ignoring errors, remove the characters
outside `[\w\s-]`, strip edge whitespace, lowercase, then collapse runs of
hyphens/whitespace into single hyphens. -/
def slugify (value : String) : String :=
  String.mk (collapseRuns (lowerAll (stripEdgeSpaces (removeDisallowed (nfkdAscii value.data)))))

/-! ### Variants of the normalizer used to state the claims about it -/

/-- Trim hyphens from both edges of a character list. -/
def trimEdgeHyphens (l : List Char) : List Char :=
  ((l.dropWhile (fun c => c.toNat == 45)).reverse.dropWhile (fun c => c.toNat == 45)).reverse

/-- Normalizer exactly as claim C6 words it: lowercase, transliterate/strip
diacritics, remove every character that is neither a word character nor
whitespace nor a hyphen, collapse each run of whitespace and/or hyphens into
a single hyphen, and trim hyphens from both edges of the result. -/
def slugifyClaimed (value : String) : String :=
  String.mk (trimEdgeHyphens (collapseRuns (removeDisallowed (nfkdAscii (lowerAll value.data)))))

/-- Drop whitespace characters from the front of a character list. -/
def dropLeadingSpaces : List Char → List Char
  | [] => []
  | c :: rest => if isSpaceCharB c then dropLeadingSpaces rest else c :: rest

/-- Trim whitespace from both edges of a character list (leading side first,
then the trailing side through a reversal). -/
def trimSpaces (l : List Char) : List Char :=
  (dropLeadingSpaces (dropLeadingSpaces l).reverse).reverse

/-- Prepend a hyphen to a character list, merging with a hyphen already at
its head. -/
def hyphenCons (l : List Char) : List Char :=
  match l with
  | d :: tail => if d = '-' then d :: tail else '-' :: d :: tail
  | [] => ['-']

/-- Run collapsing written as a right fold: a hyphen/whitespace character
merges into a hyphen already produced on its right, every other character is
kept. -/
def collapseFoldr (l : List Char) : List Char :=
  l.foldr (fun c acc => if isHyphenOrSpace c then hyphenCons acc else c :: acc) []

/-- Normalizer as the amended claim C6 describes it: transliterate/strip
diacritics, remove every character that is neither a word character nor
whitespace nor a hyphen, trim whitespace (not hyphens) from both edges,
lowercase, and collapse each run of whitespace and/or hyphens into a single
hyphen; hyphens at the edges are kept. -/
def slugifyAmended (value : String) : String :=
  String.mk (collapseFoldr (lowerAll (trimSpaces (removeDisallowed (nfkdAscii value.data)))))

/-! ### Slug character classes -/

/-- Character of the slug pattern class `[A-Za-z0-9_-]`. -/
def isSlugChar (c : Char) : Bool :=
  isWordCharB c || c.toNat == 45

/-- Character of the class `[a-z0-9_-]`: a slug character that is not an
uppercase letter. -/
def isLowerSlugChar (c : Char) : Bool :=
  (97 ≤ c.toNat && c.toNat ≤ 122) || (48 ≤ c.toNat && c.toNat ≤ 57) ||
    c.toNat == 95 || c.toNat == 45

/-- Test of the full slug pattern `^[A-Za-z0-9_-]+$`: non-empty and made of
slug characters only.  This is also the validation applied by the API client
to caller-supplied slugs. -/
def matchesSlugPattern (s : String) : Bool :=
  !s.isEmpty && s.data.all isSlugChar

/-! ### Model of the API client

The module defining `TransifexAPI` is not present under `src/` (only its
test suite and the slug utility are), so the client is modelled from the
specification: each operation validates its arguments, builds one request,
hands it to an HTTP transport given as a function argument, and interprets
the response.  File access is likewise passed in as its outcome
(`Except msg content`), since the spec treats the filesystem as an external
collaborator whose failures propagate unchanged.  Every operation returns
the list of requests it issued together with its result, so that
"raised before any request was issued" is the statement that the list is
empty. -/

/-- JSON values, used for request payloads and response bodies. -/
inductive Json where
  | null : Json
  | bool : Bool → Json
  | num : Int → Json
  | str : String → Json
  | arr : List Json → Json
  | obj : List (String × Json) → Json

/-- Look a key up in a JSON object field list (first match wins). -/
def lookupField : List (String × Json) → String → Option Json
  | [], _ => none
  | (k, v) :: rest, key => if k = key then some v else lookupField rest key

/-- Look a key up in a JSON value; non-objects have no keys. -/
def jsonLookup : Json → String → Option Json
  | Json.obj fields, key => lookupField fields key
  | _, _ => none

/-- Modelled from the spec: client configuration, an immutable record of
host, username and password. -/
structure TransifexAPI where
  username : String
  password : String
  host : String

/-- An HTTP request as the client builds it: method, URL and JSON payload
(the basic-auth header carries no information beyond the configuration, so
it is not materialized). -/
structure HttpRequest where
  method : String
  url : String
  payload : List (String × Json)

/-- An HTTP response as the transport returns it: status code and body. -/
structure HttpResponse where
  status : Nat
  content : Json

/-- The three error kinds of the client, mirroring the exceptions of the
Python package: `InvalidSlugException`, `TransifexAPIException` (carrying
the HTTP status and the raw response body), and an uncaught I/O error
carrying the original message. -/
inductive ClientError where
  | invalidSlugException : String → ClientError
  | transifexAPIException : Nat → Json → ClientError
  | ioError : String → ClientError

/-- Result of one operation: the requests it issued, in order, and either a
value or the error it raised. -/
def OpResult (α : Type) : Type :=
  List HttpRequest × Except ClientError α

/-- Payload key present only when the caller supplied the optional string. -/
def optStrField (key : String) (v : Option String) : List (String × Json) :=
  match v with
  | some s => [(key, Json.str s)]
  | none => []

/-- Modelled from the spec: the JSON body of project creation contains the
slug, the `private` flag (explicit default `false`), and exactly the
optional fields the caller supplied — an omitted optional field is absent,
not null. -/
def newProjectBody (slug : String)
    (name source_language_code repository_url outsource_project_name : Option String)
    (isPrivate : Bool) : List (String × Json) :=
  [("slug", Json.str slug), ("private", Json.bool isPrivate)]
    ++ optStrField "name" name
    ++ optStrField "source_language_code" source_language_code
    ++ optStrField "repository_url" repository_url
    ++ optStrField "outsource_project_name" outsource_project_name

/-- Modelled from the spec: `new_project` validates the caller-supplied slug
before anything else, then POSTs the JSON body; HTTP 201 is success, any
other status raises the API error with status and body. -/
def new_project (api : TransifexAPI) (slug : String)
    (name source_language_code repository_url outsource_project_name : Option String)
    (isPrivate : Bool) (transport : HttpRequest → HttpResponse) : OpResult Unit :=
  if matchesSlugPattern slug then
    let req : HttpRequest :=
      { method := "POST", url := api.host ++ "/api/2/projects/",
        payload := newProjectBody slug name source_language_code repository_url
          outsource_project_name isPrivate }
    let resp := transport req
    if resp.status = 201 then ([req], Except.ok ())
    else ([req], Except.error (ClientError.transifexAPIException resp.status resp.content))
  else ([], Except.error (ClientError.invalidSlugException slug))

/-- Modelled from the spec: `list_resources` GETs the resource list; HTTP
200 returns the parsed JSON body verbatim, any other status raises. -/
def list_resources (api : TransifexAPI) (project_slug : String)
    (transport : HttpRequest → HttpResponse) : OpResult Json :=
  let req : HttpRequest :=
    { method := "GET", url := api.host ++ "/api/2/project/" ++ project_slug ++ "/resources/",
      payload := [] }
  let resp := transport req
  if resp.status = 200 then ([req], Except.ok resp.content)
  else ([req], Except.error (ClientError.transifexAPIException resp.status resp.content))

/-- Last path segment of a file path, used to derive a default resource
slug from the source filename. -/
def basename (path : String) : String :=
  match (path.splitOn "/").getLast? with
  | some b => b
  | none => path

/-- Modelled from the spec: `new_resource` defaults the resource slug to the
normalized filename, validates the slug, reads the file (an I/O failure
propagates unchanged and no request is issued), then POSTs
`name`/`slug`/`content`/`i18n_type`; HTTP 201 is success, any other status
raises the API error with status and body. -/
def new_resource (api : TransifexAPI) (project_slug path_to_pofile : String)
    (resource_slug resource_name : Option String) (i18n_type : String)
    (fileRead : Except String String)
    (transport : HttpRequest → HttpResponse) : OpResult Unit :=
  let slug := resource_slug.getD (slugify (basename path_to_pofile))
  if matchesSlugPattern slug then
    match fileRead with
    | Except.error msg => ([], Except.error (ClientError.ioError msg))
    | Except.ok content =>
      let req : HttpRequest :=
        { method := "POST",
          url := api.host ++ "/api/2/project/" ++ project_slug ++ "/resources/",
          payload := [("name", Json.str (resource_name.getD slug)), ("slug", Json.str slug),
            ("content", Json.str content), ("i18n_type", Json.str i18n_type)] }
      let resp := transport req
      if resp.status = 201 then ([req], Except.ok ())
      else ([req], Except.error (ClientError.transifexAPIException resp.status resp.content))
  else ([], Except.error (ClientError.invalidSlugException slug))

/-- Modelled from the spec: `update_source_translation` reads the file (an
I/O failure propagates unchanged and no request is issued), PUTs `content`;
HTTP 200 is success and returns the parsed JSON body, any other status
raises the API error with status and body. -/
def update_source_translation (api : TransifexAPI) (project_slug resource_slug : String)
    (fileRead : Except String String)
    (transport : HttpRequest → HttpResponse) : OpResult Json :=
  match fileRead with
  | Except.error msg => ([], Except.error (ClientError.ioError msg))
  | Except.ok content =>
    let req : HttpRequest :=
      { method := "PUT",
        url := api.host ++ "/api/2/project/" ++ project_slug ++ "/resource/" ++ resource_slug
          ++ "/content/",
        payload := [("content", Json.str content)] }
    let resp := transport req
    if resp.status = 200 then ([req], Except.ok resp.content)
    else ([req], Except.error (ClientError.transifexAPIException resp.status resp.content))

/-- Modelled from the spec: `new_translation` reads the file (an I/O failure
propagates unchanged and no request is issued), PUTs `content` to the
language endpoint; HTTP 200 is success and returns the parsed JSON body,
any other status raises the API error with status and body. -/
def new_translation (api : TransifexAPI) (project_slug resource_slug language_code : String)
    (fileRead : Except String String)
    (transport : HttpRequest → HttpResponse) : OpResult Json :=
  match fileRead with
  | Except.error msg => ([], Except.error (ClientError.ioError msg))
  | Except.ok content =>
    let req : HttpRequest :=
      { method := "PUT",
        url := api.host ++ "/api/2/project/" ++ project_slug ++ "/resource/" ++ resource_slug
          ++ "/translation/" ++ language_code ++ "/",
        payload := [("content", Json.str content)] }
    let resp := transport req
    if resp.status = 200 then ([req], Except.ok resp.content)
    else ([req], Except.error (ClientError.transifexAPIException resp.status resp.content))

/-- Modelled from the spec: `get_translation` GETs the language endpoint; on
HTTP 200 it writes the body to the destination (the outcome of that local
write is the `fileWrite` argument, and its failure propagates unchanged);
any other status raises the API error with status and body. -/
def get_translation (api : TransifexAPI) (project_slug resource_slug language_code : String)
    (transport : HttpRequest → HttpResponse)
    (fileWrite : Except String Unit) : OpResult Unit :=
  let req : HttpRequest :=
    { method := "GET",
      url := api.host ++ "/api/2/project/" ++ project_slug ++ "/resource/" ++ resource_slug
        ++ "/translation/" ++ language_code ++ "/",
      payload := [] }
  let resp := transport req
  if resp.status = 200 then
    match fileWrite with
    | Except.ok _ => ([req], Except.ok ())
    | Except.error msg => ([req], Except.error (ClientError.ioError msg))
  else ([req], Except.error (ClientError.transifexAPIException resp.status resp.content))

/-- Modelled from the spec: `delete_resource` DELETEs the resource; HTTP 204
is success, any other status raises the API error with status and body. -/
def delete_resource (api : TransifexAPI) (project_slug resource_slug : String)
    (transport : HttpRequest → HttpResponse) : OpResult Unit :=
  let req : HttpRequest :=
    { method := "DELETE",
      url := api.host ++ "/api/2/project/" ++ project_slug ++ "/resource/" ++ resource_slug
        ++ "/",
      payload := [] }
  let resp := transport req
  if resp.status = 204 then ([req], Except.ok ())
  else ([req], Except.error (ClientError.transifexAPIException resp.status resp.content))

/-- The `code` field of one entry of `available_languages`, when present. -/
def codeOf (lang : Json) : Option String :=
  match jsonLookup lang "code" with
  | some (Json.str c) => some c
  | _ => none

/-- Extract the language codes from a resource-details body: the `code`
field of each entry of its `available_languages` list, every other field
discarded. -/
def extractLanguageCodes (body : Json) : List String :=
  match jsonLookup body "available_languages" with
  | some (Json.arr langs) => langs.filterMap codeOf
  | _ => []

/-- Modelled from the spec: `list_languages` GETs the resource details; HTTP
200 returns just the list of language codes extracted from
`available_languages`, any other status raises the API error with status
and body. -/
def list_languages (api : TransifexAPI) (project_slug resource_slug : String)
    (transport : HttpRequest → HttpResponse) : OpResult (List String) :=
  let req : HttpRequest :=
    { method := "GET",
      url := api.host ++ "/api/2/project/" ++ project_slug ++ "/resource/" ++ resource_slug
        ++ "/?details",
      payload := [] }
  let resp := transport req
  if resp.status = 200 then ([req], Except.ok (extractLanguageCodes resp.content))
  else ([req], Except.error (ClientError.transifexAPIException resp.status resp.content))

/-- Modelled from the spec: `project_exists` GETs the project details and
returns `true` on HTTP 200, `false` on HTTP 404, and raises the API error
with status and body on any other status. -/
def project_exists (api : TransifexAPI) (project_slug : String)
    (transport : HttpRequest → HttpResponse) : OpResult Bool :=
  let req : HttpRequest :=
    { method := "GET", url := api.host ++ "/api/2/project/" ++ project_slug ++ "/",
      payload := [] }
  let resp := transport req
  if resp.status = 200 then ([req], Except.ok true)
  else if resp.status = 404 then ([req], Except.ok false)
  else ([req], Except.error (ClientError.transifexAPIException resp.status resp.content))

/-! ### Lemmas about the slug normalizer -/

theorem char_eq_of_toNat_eq {c d : Char} (h : c.toNat = d.toNat) : c = d :=
  Char.ext (UInt32.ext h)

theorem dropLeadingSpaces_eq_dropWhile (l : List Char) :
    dropLeadingSpaces l = l.dropWhile isSpaceCharB := by
  induction l with
  | nil => rfl
  | cons c rest ih =>
    rw [dropLeadingSpaces, List.dropWhile_cons]
    by_cases hc : isSpaceCharB c = true
    · rw [if_pos hc, if_pos hc, ih]
    · rw [if_neg hc, if_neg hc]

theorem trimSpaces_eq_stripEdgeSpaces (l : List Char) :
    trimSpaces l = stripEdgeSpaces l := by
  rw [trimSpaces, stripEdgeSpaces, dropLeadingSpaces_eq_dropWhile, dropLeadingSpaces_eq_dropWhile]

theorem hyphenCons_hyphenCons (l : List Char) : hyphenCons (hyphenCons l) = hyphenCons l := by
  cases l with
  | nil => rfl
  | cons d tail =>
    rw [hyphenCons]
    by_cases hd : d = '-'
    · rw [if_pos hd, hyphenCons, if_pos hd]
    · rw [if_neg hd, hyphenCons, if_pos rfl]

theorem not_hyphen_of_not_hyphenOrSpace {c : Char} (h : isHyphenOrSpace c = false) :
    ¬ c = '-' := by
  intro hc
  subst hc
  simp [isHyphenOrSpace] at h

theorem collapseAux_eq_collapseFoldr (l : List Char) :
    collapseAux false l = collapseFoldr l ∧
      '-' :: collapseAux true l = hyphenCons (collapseFoldr l) := by
  induction l with
  | nil => exact ⟨rfl, rfl⟩
  | cons c rest ih =>
    obtain ⟨ihf, iht⟩ := ih
    have hfold : collapseFoldr (c :: rest)
        = if isHyphenOrSpace c then hyphenCons (collapseFoldr rest)
          else c :: collapseFoldr rest := rfl
    by_cases hc : isHyphenOrSpace c = true
    · constructor
      · rw [hfold, if_pos hc, collapseAux, hc]
        simp only [if_true]
        exact iht
      · rw [hfold, if_pos hc, collapseAux, hc]
        simp only [if_true]
        rw [iht, hyphenCons_hyphenCons]
    · rw [Bool.not_eq_true] at hc
      constructor
      · rw [hfold, if_neg (by simp [hc]), collapseAux, hc]
        simp only [Bool.false_eq_true, if_false]
        rw [ihf]
      · rw [hfold, if_neg (by simp [hc]), collapseAux, hc]
        simp only [Bool.false_eq_true, if_false]
        rw [hyphenCons, if_neg (not_hyphen_of_not_hyphenOrSpace hc), ihf]

theorem collapseRuns_eq_collapseFoldr (l : List Char) : collapseRuns l = collapseFoldr l :=
  (collapseAux_eq_collapseFoldr l).1

theorem mem_collapseAux {c : Char} :
    ∀ (b : Bool) (l : List Char), c ∈ collapseAux b l →
      c = '-' ∨ (c ∈ l ∧ isHyphenOrSpace c = false) := by
  intro b l
  induction l generalizing b with
  | nil => intro h; simp [collapseAux] at h
  | cons d rest ih =>
    intro h
    rw [collapseAux] at h
    by_cases hd : isHyphenOrSpace d = true
    · rw [hd] at h
      simp only [if_true] at h
      cases b with
      | true =>
        rcases ih true h with h1 | ⟨h2, h3⟩
        · exact Or.inl h1
        · exact Or.inr ⟨List.mem_cons_of_mem d h2, h3⟩
      | false =>
        rcases List.mem_cons.mp h with h1 | h1
        · exact Or.inl h1
        · rcases ih true h1 with h2 | ⟨h3, h4⟩
          · exact Or.inl h2
          · exact Or.inr ⟨List.mem_cons_of_mem d h3, h4⟩
    · rw [Bool.not_eq_true] at hd
      rw [hd] at h
      simp only [Bool.false_eq_true, if_false] at h
      rcases List.mem_cons.mp h with h1 | h1
      · subst h1
        exact Or.inr ⟨List.mem_cons_self c rest, hd⟩
      · rcases ih false h1 with h2 | ⟨h3, h4⟩
        · exact Or.inl h2
        · exact Or.inr ⟨List.mem_cons_of_mem d h3, h4⟩

theorem mem_stripEdgeSpaces {c : Char} {l : List Char} (h : c ∈ stripEdgeSpaces l) : c ∈ l := by
  rw [stripEdgeSpaces] at h
  rw [List.mem_reverse] at h
  have h1 := (List.dropWhile_sublist (l := (l.dropWhile isSpaceCharB).reverse) isSpaceCharB).subset h
  rw [List.mem_reverse] at h1
  exact (List.dropWhile_sublist isSpaceCharB).subset h1

theorem toLowerB_of_not_upper {c : Char} (h : ¬ (65 ≤ c.toNat ∧ c.toNat ≤ 90)) :
    toLowerB c = c := by
  rw [toLowerB, if_neg (by simpa using h)]

theorem isLowerSlugChar_toLowerB {d : Char}
    (hd : (isWordCharB d || isSpaceCharB d || d.toNat == 45) = true)
    (hc : isHyphenOrSpace (toLowerB d) = false) :
    isLowerSlugChar (toLowerB d) = true := by
  simp only [isWordCharB, isSpaceCharB, Bool.or_eq_true, Bool.and_eq_true,
    decide_eq_true_eq, beq_iff_eq] at hd
  by_cases hu : 65 ≤ d.toNat ∧ d.toNat ≤ 90
  · rw [toLowerB, if_pos (by simp only [Bool.and_eq_true, decide_eq_true_eq]; exact hu)]
    obtain ⟨h1, h2⟩ := hu
    set n := d.toNat with hn
    interval_cases n <;> decide
  · rw [toLowerB_of_not_upper hu] at hc ⊢
    rw [Bool.eq_false_iff] at hc
    simp only [isHyphenOrSpace, isSpaceCharB, ne_eq, Bool.or_eq_true, Bool.and_eq_true,
      decide_eq_true_eq, beq_iff_eq] at hc
    simp only [isLowerSlugChar, Bool.or_eq_true, Bool.and_eq_true, decide_eq_true_eq, beq_iff_eq]
    omega

theorem mem_slugify_isLowerSlugChar {s : String} {c : Char} (h : c ∈ (slugify s).data) :
    isLowerSlugChar c = true := by
  have hdata : (slugify s).data
      = collapseAux false (lowerAll (stripEdgeSpaces (removeDisallowed (nfkdAscii s.data)))) := rfl
  rw [hdata] at h
  rcases mem_collapseAux false _ h with h1 | ⟨h2, h3⟩
  · subst h1; decide
  · rw [lowerAll] at h2
    rcases List.mem_map.mp h2 with ⟨d, hd1, hd2⟩
    have hd3 := mem_stripEdgeSpaces hd1
    have hd4 := (List.mem_filter.mp hd3).2
    subst hd2
    exact isLowerSlugChar_toLowerB hd4 h3

/-- Absence of two adjacent hyphen/whitespace characters. -/
def noHyphenRun : List Char → Bool
  | [] => true
  | [_] => true
  | c :: d :: rest => !(isHyphenOrSpace c && isHyphenOrSpace d) && noHyphenRun (d :: rest)

theorem head_collapseAux_true {l : List Char} {c : Char} {rest : List Char}
    (h : collapseAux true l = c :: rest) : isHyphenOrSpace c = false := by
  induction l generalizing c rest with
  | nil => simp [collapseAux] at h
  | cons d r ih =>
    rw [collapseAux] at h
    by_cases hd : isHyphenOrSpace d = true
    · rw [hd] at h
      simp only [if_true] at h
      exact ih h
    · rw [Bool.not_eq_true] at hd
      rw [hd] at h
      simp only [Bool.false_eq_true, if_false] at h
      rw [List.cons.injEq] at h
      rw [← h.1]
      exact hd

theorem noHyphenRun_collapseAux : ∀ (b : Bool) (l : List Char),
    noHyphenRun (collapseAux b l) = true := by
  intro b l
  induction l generalizing b with
  | nil => cases b <;> rfl
  | cons d rest ih =>
    rw [collapseAux]
    by_cases hd : isHyphenOrSpace d = true
    · rw [hd]
      simp only [if_true]
      cases b with
      | true => exact ih true
      | false =>
        rcases hcr : collapseAux true rest with _ | ⟨c, t⟩
        · rfl
        · have hc := head_collapseAux_true hcr
          show (!(isHyphenOrSpace '-' && isHyphenOrSpace c) && noHyphenRun (c :: t)) = true
          rw [hc]
          simp only [Bool.and_false, Bool.not_false, Bool.true_and]
          rw [← hcr]
          exact ih true
    · rw [Bool.not_eq_true] at hd
      rw [hd]
      simp only [Bool.false_eq_true, if_false]
      rcases hcr : collapseAux false rest with _ | ⟨c, t⟩
      · rfl
      · show (!(isHyphenOrSpace d && isHyphenOrSpace c) && noHyphenRun (c :: t)) = true
        rw [hd]
        simp only [Bool.false_and, Bool.not_false, Bool.true_and]
        rw [← hcr]
        exact ih false

theorem noHyphenRun_slugify (s : String) : noHyphenRun (slugify s).data = true :=
  noHyphenRun_collapseAux false _

theorem nfkdAscii_eq_self {l : List Char} (h : ∀ c ∈ l, c.toNat ≤ 127) :
    nfkdAscii l = l := by
  induction l with
  | nil => rfl
  | cons c rest ih =>
    rw [nfkdAscii, asciiFold, if_pos (h c (List.mem_cons_self c rest)),
      ih (fun d hd => h d (List.mem_cons_of_mem c hd))]
    rfl

theorem removeDisallowed_eq_self {l : List Char} (h : ∀ c ∈ l, isLowerSlugChar c = true) :
    removeDisallowed l = l := by
  rw [removeDisallowed, List.filter_eq_self]
  intro a ha
  have ha2 := h a ha
  simp only [isLowerSlugChar, Bool.or_eq_true, Bool.and_eq_true, decide_eq_true_eq,
    beq_iff_eq] at ha2
  show (isWordCharB a || isSpaceCharB a || a.toNat == 45) = true
  simp only [isWordCharB, isSpaceCharB, Bool.or_eq_true, Bool.and_eq_true, decide_eq_true_eq,
    beq_iff_eq]
  omega

theorem dropWhile_spaces_eq_self {l : List Char} (h : ∀ c ∈ l, isSpaceCharB c = false) :
    l.dropWhile isSpaceCharB = l := by
  cases l with
  | nil => rfl
  | cons c rest =>
    rw [List.dropWhile_cons, if_neg (by rw [h c (List.mem_cons_self c rest)]; simp)]

theorem stripEdgeSpaces_eq_self {l : List Char} (h : ∀ c ∈ l, isSpaceCharB c = false) :
    stripEdgeSpaces l = l := by
  rw [stripEdgeSpaces, dropWhile_spaces_eq_self h,
    dropWhile_spaces_eq_self (fun c hc => h c (List.mem_reverse.mp hc)), List.reverse_reverse]

theorem lowerAll_eq_self {l : List Char} (h : ∀ c ∈ l, isLowerSlugChar c = true) :
    lowerAll l = l := by
  rw [lowerAll]
  have h2 : ∀ c ∈ l, toLowerB c = id c := by
    intro c hc
    have := h c hc
    simp only [isLowerSlugChar, Bool.or_eq_true, Bool.and_eq_true, decide_eq_true_eq,
      beq_iff_eq] at this
    exact toLowerB_of_not_upper (by omega)
  rw [List.map_congr_left h2, List.map_id]

theorem collapseAux_false_eq_self : ∀ l : List Char,
    (∀ c ∈ l, isLowerSlugChar c = true) → noHyphenRun l = true → collapseAux false l = l := by
  intro l
  induction l with
  | nil => intro _ _; rfl
  | cons c rest ih =>
    intro hch hrun
    rw [collapseAux]
    by_cases hc : isHyphenOrSpace c = true
    · have hc45 : c.toNat = 45 := by
        have h1 := hch c (List.mem_cons_self c rest)
        simp only [isHyphenOrSpace, isSpaceCharB, Bool.or_eq_true, Bool.and_eq_true,
          decide_eq_true_eq, beq_iff_eq] at hc
        simp only [isLowerSlugChar, Bool.or_eq_true, Bool.and_eq_true, decide_eq_true_eq,
          beq_iff_eq] at h1
        omega
      have hceq : c = '-' := char_eq_of_toNat_eq (by rw [hc45]; rfl)
      rw [hc]
      simp only [if_true]
      cases rest with
      | nil => rw [hceq]; rfl
      | cons d r =>
        have hpair : (!(isHyphenOrSpace c && isHyphenOrSpace d) && noHyphenRun (d :: r))
            = true := hrun
        rw [hc] at hpair
        simp only [Bool.true_and, Bool.and_eq_true, Bool.not_eq_eq_eq_not, Bool.not_true] at hpair
        obtain ⟨hd, hrest⟩ := hpair
        have hflag : collapseAux true (d :: r) = collapseAux false (d :: r) := by
          rw [collapseAux, collapseAux, hd]
          simp
        have hid := ih (fun x hx => hch x (List.mem_cons_of_mem c hx)) hrest
        rw [hflag, hid, hceq]
        simp
    · rw [Bool.not_eq_true] at hc
      rw [hc]
      simp only [Bool.false_eq_true, if_false]
      have hrest : noHyphenRun rest = true := by
        cases rest with
        | nil => rfl
        | cons d r =>
          have hpair : (!(isHyphenOrSpace c && isHyphenOrSpace d) && noHyphenRun (d :: r))
              = true := hrun
          simp only [Bool.and_eq_true] at hpair
          exact hpair.2
      rw [ih (fun x hx => hch x (List.mem_cons_of_mem c hx)) hrest]

/-! ### Claims about the slug normalizer -/

/-- C7: slug normalization of `"Hello, World!  Ünïcode"` yields exactly
`"hello-world-unicode"`: diacritics stripped, punctuation removed, runs of
spaces collapsed to single hyphens, lowercased. -/
theorem slugify_hello_world_unicode :
    slugify "Hello, World!  Ünïcode" = "hello-world-unicode" := by decide

/-- Counterexample to C6: on the input `" -hello- "` the normalizer keeps
the hyphens at both edges (it trims only whitespace, and does so before
collapsing), so it differs from the claimed behavior of trimming hyphens
from both edges of the result. -/
theorem slugify_keeps_edge_hyphens :
    slugify " -hello- " = "-hello-" ∧ slugify " -hello- " ≠ slugifyClaimed " -hello- " :=
  ⟨by decide, by decide⟩

/-- C6 (amended): for every input string the normalizer transliterates and
strips diacritics, removes every character that is neither a word character
nor whitespace nor a hyphen, trims whitespace (not hyphens) from both
edges, lowercases, and collapses each run of whitespace and/or hyphens into
a single hyphen; hyphens at the edges of the result are kept. -/
theorem slugify_amended_description (s : String) : slugify s = slugifyAmended s := by
  show String.mk (collapseAux false (lowerAll (stripEdgeSpaces (removeDisallowed
      (nfkdAscii s.data))))) = slugifyAmended s
  rw [slugifyAmended, ← trimSpaces_eq_stripEdgeSpaces, (collapseAux_eq_collapseFoldr _).1]

/-- Counterexample to C8: on the input `"."` the normalizer returns the
empty string, which does not match `^[A-Za-z0-9_-]+$`. -/
theorem slugify_output_can_be_empty :
    slugify "." = "" ∧ matchesSlugPattern (slugify ".") = false :=
  ⟨by decide, by decide⟩

/-- C8 (amended): for every input string, every character of the
normalizer's output lies in `[a-z0-9_-]` — in particular no whitespace, no
`.`, no `/`, no uppercase letters — but the output may be empty, i.e. it
matches `^[A-Za-z0-9_-]*$` rather than `^[A-Za-z0-9_-]+$`. -/
theorem slugify_output_charset (s : String) :
    (slugify s).data.all isLowerSlugChar = true := by
  rw [List.all_eq_true]
  intro c hc
  exact mem_slugify_isLowerSlugChar hc

/-- C10: the slug normalizer is idempotent — normalizing its own output
returns that output unchanged. -/
theorem slugify_idempotent (s : String) : slugify (slugify s) = slugify s := by
  have hch : ∀ c ∈ (slugify s).data, isLowerSlugChar c = true :=
    fun c hc => mem_slugify_isLowerSlugChar hc
  have hrun := noHyphenRun_slugify s
  have h127 : ∀ c ∈ (slugify s).data, c.toNat ≤ 127 := by
    intro c hc
    have := hch c hc
    simp only [isLowerSlugChar, Bool.or_eq_true, Bool.and_eq_true, decide_eq_true_eq,
      beq_iff_eq] at this
    omega
  have hsp : ∀ c ∈ (slugify s).data, isSpaceCharB c = false := by
    intro c hc
    have h1 := hch c hc
    rw [Bool.eq_false_iff]
    intro hx
    simp only [isSpaceCharB, Bool.or_eq_true, Bool.and_eq_true, decide_eq_true_eq,
      beq_iff_eq] at hx
    simp only [isLowerSlugChar, Bool.or_eq_true, Bool.and_eq_true, decide_eq_true_eq,
      beq_iff_eq] at h1
    omega
  show String.mk (collapseAux false (lowerAll (stripEdgeSpaces (removeDisallowed
      (nfkdAscii (slugify s).data))))) = slugify s
  rw [nfkdAscii_eq_self h127, removeDisallowed_eq_self hch, stripEdgeSpaces_eq_self hsp,
    lowerAll_eq_self hch, collapseAux_false_eq_self _ hch hrun]

/-! ### Claims about the API client -/

/-- C1: for every caller-supplied slug that is empty or contains a character
outside `[A-Za-z0-9_-]`, project creation and resource creation raise the
invalid-slug error and issue no HTTP request. -/
theorem invalid_slug_rejected_before_request (api : TransifexAPI) (slug : String)
    (h : matchesSlugPattern slug = false)
    (name slc ru opn rname : Option String) (isPrivate : Bool)
    (project_slug path i18n : String) (fileRead : Except String String)
    (transport : HttpRequest → HttpResponse) :
    new_project api slug name slc ru opn isPrivate transport
        = ([], Except.error (ClientError.invalidSlugException slug)) ∧
    new_resource api project_slug path (some slug) rname i18n fileRead transport
        = ([], Except.error (ClientError.invalidSlugException slug)) := by
  constructor
  · simp [new_project, h]
  · simp [new_resource.eq_def, h]

/-- Witness for C1 at the concrete slug `"%@$"` from the test suite. -/
theorem invalid_slug_rejected_before_request_witness :
    new_project ⟨"aaa", "aaa", "http://www.mydomain.com"⟩ "%@$" none none none none false
        (fun _ => ⟨201, Json.null⟩)
      = ([], Except.error (ClientError.invalidSlugException "%@$")) ∧
    new_resource ⟨"aaa", "aaa", "http://www.mydomain.com"⟩ "abc" "/aaa/file.po" (some "%@$")
        none "PO" (Except.ok "x") (fun _ => ⟨201, Json.null⟩)
      = ([], Except.error (ClientError.invalidSlugException "%@$")) :=
  invalid_slug_rejected_before_request ⟨"aaa", "aaa", "http://www.mydomain.com"⟩ "%@$"
    (by decide) none none none none none false "abc" "/aaa/file.po" "PO" (Except.ok "x")
    (fun _ => ⟨201, Json.null⟩)

/-- C2: for every operation, a response status outside the operation's
success set (201 for creation, 200 for reads/updates, 204 for deletion,
with 200/404 handled specially by the existence check) raises the API error
carrying the status and the raw body, and a status inside it raises
nothing. -/
theorem status_code_discipline (api : TransifexAPI) (resp : HttpResponse)
    (slug ps rs lc path fc : String) (hs : matchesSlugPattern slug = true) :
    (new_project api slug none none none none false (fun _ => resp)).2
        = (if resp.status = 201 then Except.ok ()
           else Except.error (ClientError.transifexAPIException resp.status resp.content)) ∧
    (list_resources api ps (fun _ => resp)).2
        = (if resp.status = 200 then Except.ok resp.content
           else Except.error (ClientError.transifexAPIException resp.status resp.content)) ∧
    (new_resource api ps path (some slug) none "PO" (Except.ok fc) (fun _ => resp)).2
        = (if resp.status = 201 then Except.ok ()
           else Except.error (ClientError.transifexAPIException resp.status resp.content)) ∧
    (update_source_translation api ps rs (Except.ok fc) (fun _ => resp)).2
        = (if resp.status = 200 then Except.ok resp.content
           else Except.error (ClientError.transifexAPIException resp.status resp.content)) ∧
    (new_translation api ps rs lc (Except.ok fc) (fun _ => resp)).2
        = (if resp.status = 200 then Except.ok resp.content
           else Except.error (ClientError.transifexAPIException resp.status resp.content)) ∧
    (get_translation api ps rs lc (fun _ => resp) (Except.ok ())).2
        = (if resp.status = 200 then Except.ok ()
           else Except.error (ClientError.transifexAPIException resp.status resp.content)) ∧
    (delete_resource api ps rs (fun _ => resp)).2
        = (if resp.status = 204 then Except.ok ()
           else Except.error (ClientError.transifexAPIException resp.status resp.content)) ∧
    (list_languages api ps rs (fun _ => resp)).2
        = (if resp.status = 200 then Except.ok (extractLanguageCodes resp.content)
           else Except.error (ClientError.transifexAPIException resp.status resp.content)) ∧
    (project_exists api ps (fun _ => resp)).2
        = (if resp.status = 404 then Except.ok false
           else if resp.status = 200 then Except.ok true
           else Except.error (ClientError.transifexAPIException resp.status resp.content)) := by
  refine ⟨?_, ?_, ?_, ?_, ?_, ?_, ?_, ?_, ?_⟩
  · by_cases h : resp.status = 201 <;> simp [new_project, hs, h]
  · by_cases h : resp.status = 200 <;> simp [list_resources, h]
  · by_cases h : resp.status = 201 <;> simp [new_resource.eq_def, hs, h]
  · by_cases h : resp.status = 200 <;> simp [update_source_translation, h]
  · by_cases h : resp.status = 200 <;> simp [new_translation, h]
  · by_cases h : resp.status = 200 <;> simp [get_translation, h]
  · by_cases h : resp.status = 204 <;> simp [delete_resource, h]
  · by_cases h : resp.status = 200 <;> simp [list_languages, h]
  · by_cases h200 : resp.status = 200
    · simp [project_exists, h200]
    · by_cases h404 : resp.status = 404 <;> simp [project_exists, h200, h404]

/-- Witness for C2 at a concrete 400 response: every operation turns it
into the API error carrying the status and body. -/
theorem status_code_discipline_witness :
    (delete_resource ⟨"aaa", "aaa", "http://www.mydomain.com"⟩ "abc" "def"
        (fun _ => ⟨400, Json.str "err"⟩)).2
      = Except.error (ClientError.transifexAPIException 400 (Json.str "err")) ∧
    (new_project ⟨"aaa", "aaa", "http://www.mydomain.com"⟩ "abc" none none none none false
        (fun _ => ⟨400, Json.str "err"⟩)).2
      = Except.error (ClientError.transifexAPIException 400 (Json.str "err")) := by
  have h := status_code_discipline ⟨"aaa", "aaa", "http://www.mydomain.com"⟩
    ⟨400, Json.str "err"⟩ "abc" "abc" "def" "en" "/aaa/file.po" "fc" (by decide)
  exact ⟨by simpa using h.2.2.2.2.2.2.1, by simpa using h.1⟩

/-- C3: the project-existence check returns true on HTTP 200, false on HTTP
404, and raises the API error carrying the status and the raw body on every
other status — an ambiguous status is never mapped to false. -/
theorem project_exists_status_mapping (api : TransifexAPI) (ps : String)
    (resp : HttpResponse) :
    (project_exists api ps (fun _ => resp)).2
      = (if resp.status = 200 then Except.ok true
         else if resp.status = 404 then Except.ok false
         else Except.error (ClientError.transifexAPIException resp.status resp.content)) := by
  by_cases h200 : resp.status = 200
  · simp [project_exists, h200]
  · by_cases h404 : resp.status = 404 <;> simp [project_exists, h200, h404]

theorem filterMap_codeOf_eq : ∀ (ls : List Json) (cs : List String),
    ls.map (fun lang => jsonLookup lang "code") = cs.map (fun c => some (Json.str c)) →
    ls.filterMap codeOf = cs := by
  intro ls
  induction ls with
  | nil =>
    intro cs h
    cases cs with
    | nil => rfl
    | cons c cs2 => simp at h
  | cons l ls2 ih =>
    intro cs h
    cases cs with
    | nil => simp at h
    | cons c cs2 =>
      simp only [List.map_cons, List.cons.injEq] at h
      obtain ⟨h1, h2⟩ := h
      simp only [List.filterMap_cons, codeOf, h1]
      rw [ih cs2 h2]

/-- C4: on an HTTP 200 response whose body has an `available_languages`
list whose entries carry `code` fields, `list_languages` returns exactly
those code values and discards every other field; on any other status it
raises the API error carrying the status and the raw body. -/
theorem list_languages_extracts_codes (api : TransifexAPI) (ps rs : String)
    (resp : HttpResponse) (langObjs : List Json) (codes : List String)
    (hlangs : jsonLookup resp.content "available_languages" = some (Json.arr langObjs))
    (hcodes : langObjs.map (fun lang => jsonLookup lang "code")
        = codes.map (fun c => some (Json.str c))) :
    (list_languages api ps rs (fun _ => resp)).2
      = (if resp.status = 200 then Except.ok codes
         else Except.error (ClientError.transifexAPIException resp.status resp.content)) := by
  have hex : extractLanguageCodes resp.content = codes := by
    rw [extractLanguageCodes.eq_def, hlangs]
    exact filterMap_codeOf_eq langObjs codes hcodes
  by_cases h : resp.status = 200 <;> simp [list_languages, h, hex]

/-- Language entries of the resource-details response used in the test
suite. -/
def sampleLanguages : List Json :=
  [Json.obj [("code_aliases", Json.str " "), ("code", Json.str "it"),
      ("name", Json.str "Italian")],
   Json.obj [("code_aliases", Json.str "en-gb"), ("code", Json.str "en_GB"),
      ("name", Json.str "English (Great Britain)")]]

/-- Resource-details response body used in the test suite. -/
def sampleResourceDetails : Json :=
  Json.obj [("slug", Json.str "txo"), ("mimetype", Json.str "text/x-po"),
    ("source_language_code", Json.str "en"), ("wordcount", Json.num 6160),
    ("total_entities", Json.num 1017), ("last_update", Json.str "2011-12-05 19:59:55"),
    ("available_languages", Json.arr sampleLanguages)]

/-- Witness for C4 on the test suite's response body: exactly the codes
`it` and `en_GB` come back. -/
theorem list_languages_extracts_codes_witness :
    (list_languages ⟨"aaa", "aaa", "http://www.mydomain.com"⟩ "abc" "def"
        (fun _ => ⟨200, sampleResourceDetails⟩)).2
      = Except.ok ["it", "en_GB"] := by
  have h := list_languages_extracts_codes ⟨"aaa", "aaa", "http://www.mydomain.com"⟩ "abc" "def"
    ⟨200, sampleResourceDetails⟩ sampleLanguages ["it", "en_GB"] rfl rfl
  simpa using h

/-- Keys contributed by an optional field: present exactly when supplied. -/
def optFieldKeys (key : String) (v : Option String) : List String :=
  match v with
  | some _ => [key]
  | none => []

/-- Test for the JSON null value. -/
def isNullJson : Json → Bool
  | Json.null => true
  | _ => false

/-- C5: outgoing JSON bodies contain only the keys the caller supplied or
keys with explicit defaults (`slug` and `private` for project creation, the
four fixed keys for resource creation, `content` for the translation
uploads), never a null value for an omitted optional field. -/
theorem request_bodies_only_supplied_keys (api : TransifexAPI) (slug rslug : String)
    (name slc ru opn rname : Option String) (isPrivate : Bool)
    (ps rs lc path fc i18n : String) (transport : HttpRequest → HttpResponse)
    (hs : matchesSlugPattern slug = true) (hr : matchesSlugPattern rslug = true) :
    ((newProjectBody slug name slc ru opn isPrivate).map Prod.fst
        = ["slug", "private"] ++ optFieldKeys "name" name
            ++ optFieldKeys "source_language_code" slc ++ optFieldKeys "repository_url" ru
            ++ optFieldKeys "outsource_project_name" opn) ∧
    ((newProjectBody slug name slc ru opn isPrivate).all (fun kv => !isNullJson kv.2)
        = true) ∧
    ((new_project api slug name slc ru opn isPrivate transport).1.map
        (fun r => r.payload) = [newProjectBody slug name slc ru opn isPrivate]) ∧
    ((new_resource api ps path (some rslug) rname i18n (Except.ok fc) transport).1.map
        (fun r => r.payload.map Prod.fst) = [["name", "slug", "content", "i18n_type"]]) ∧
    ((update_source_translation api ps rs (Except.ok fc) transport).1.map
        (fun r => r.payload.map Prod.fst) = [["content"]]) ∧
    ((new_translation api ps rs lc (Except.ok fc) transport).1.map
        (fun r => r.payload.map Prod.fst) = [["content"]]) := by
  refine ⟨?_, ?_, ?_, ?_, ?_, ?_⟩
  · cases name <;> cases slc <;> cases ru <;> cases opn <;> rfl
  · cases name <;> cases slc <;> cases ru <;> cases opn <;> rfl
  · simp [new_project, hs, apply_ite]
  · simp [new_resource.eq_def, hr, apply_ite]
  · simp [update_source_translation, apply_ite]
  · simp [new_translation, apply_ite]

/-- Witness for C5 with `name` and `repository_url` omitted: the body keys
are exactly the defaulted and the supplied ones, and the upload body has
only `content`. -/
theorem request_bodies_only_supplied_keys_witness :
    ((newProjectBody "abc" none (some "pt") none (some "anotherproject") false).map Prod.fst
        = ["slug", "private", "source_language_code", "outsource_project_name"]) ∧
    ((update_source_translation ⟨"aaa", "aaa", "http://www.mydomain.com"⟩ "abc" "def"
        (Except.ok "x") (fun _ => ⟨200, Json.null⟩)).1.map
          (fun r => r.payload.map Prod.fst) = [["content"]]) := by
  have h := request_bodies_only_supplied_keys ⟨"aaa", "aaa", "http://www.mydomain.com"⟩
    "abc" "def" none (some "pt") none (some "anotherproject") none false
    "abc" "def" "pt" "/abc/pofile.po" "x" "PO" (fun _ => ⟨200, Json.null⟩)
    (by decide) (by decide)
  exact ⟨by simpa using h.1, h.2.2.2.2.1⟩

/-- C9: a local-file failure propagates to the caller as the original I/O
error, untranslated: the operations that read a file before the request
(resource creation, source update, translation upload) issue no HTTP
request at all, and the download surfaces its write failure unchanged after
the 200 response. -/
theorem io_failure_propagates (api : TransifexAPI)
    (ps rs lc path msg i18n rslug : String) (rname : Option String)
    (hv : matchesSlugPattern rslug = true)
    (resp : HttpResponse) (hst : resp.status = 200)
    (transport : HttpRequest → HttpResponse) :
    new_resource api ps path (some rslug) rname i18n (Except.error msg) transport
        = ([], Except.error (ClientError.ioError msg)) ∧
    update_source_translation api ps rs (Except.error msg) transport
        = ([], Except.error (ClientError.ioError msg)) ∧
    new_translation api ps rs lc (Except.error msg) transport
        = ([], Except.error (ClientError.ioError msg)) ∧
    (get_translation api ps rs lc (fun _ => resp) (Except.error msg)).2
        = Except.error (ClientError.ioError msg) := by
  refine ⟨?_, ?_, ?_, ?_⟩
  · simp [new_resource.eq_def, hv]
  · simp [update_source_translation]
  · simp [new_translation]
  · simp [get_translation, hst]

/-- Witness for C9 at the test suite's message `File not found`. -/
theorem io_failure_propagates_witness :
    new_resource ⟨"aaa", "aaa", "http://www.mydomain.com"⟩ "abc" "/aaa/file.po" (some "def")
        none "PO" (Except.error "File not found") (fun _ => ⟨200, Json.null⟩)
      = ([], Except.error (ClientError.ioError "File not found")) ∧
    update_source_translation ⟨"aaa", "aaa", "http://www.mydomain.com"⟩ "abc" "def"
        (Except.error "File not found") (fun _ => ⟨200, Json.null⟩)
      = ([], Except.error (ClientError.ioError "File not found")) := by
  have h := io_failure_propagates ⟨"aaa", "aaa", "http://www.mydomain.com"⟩
    "abc" "def" "pt" "/aaa/file.po" "File not found" "PO" "def" none (by decide)
    ⟨200, Json.null⟩ rfl (fun _ => ⟨200, Json.null⟩)
  exact ⟨h.1, h.2.1⟩

end Transifex
